import Mathlib

/-!
Shallow embedding of the caltechlibrary/oclc_reconciliation record-linkage
programs (reconcile.go, reconcile2/reconcile2.go and the unnamed variant),
together with theorems settling the frozen claims about them.

Go records are embedded as a Lean structure; Go strings as `String`;
`nil`-free slices as `List`; the in-place mutation that `Merge` performs on
the candidate record is embedded by explicit state passing (the candidate
store is threaded through `Scan` and the per-pass loops); the partial Go
index expression `row[colNo]` is embedded as `List` optional indexing, so
`RowToRecord` returns an `Option Record` (`none` = Go runtime panic).
-/

namespace Reconcile

/-- The `Record` struct shared by all three program variants
(reconcile.go lines 16-33). -/
structure Record where
  MaterialType : String := ""
  MonoOrSerial : String := ""
  Date1 : String := ""
  Date2 : String := ""
  Form : String := ""
  Tind : String := ""
  OCLC : String := ""
  ISBN : String := ""
  ISSN : String := ""
  Title : String := ""
  SubTitle : String := ""
  Author : String := ""
  Publisher : String := ""
  Year : String := ""
  Pagination : String := ""
  MatchedCount : Nat := 0
  deriving Repr, DecidableEq

/-- A zero value of `Record`, as produced by Go's `new(Record)`. -/
def emptyRecord : Record := {}

/-- The code points for which Go's `unicode.IsSpace` returns true
(Unicode White_Space property), used by `strings.TrimSpace`. -/
def goSpaceChars : List Char :=
  [Char.ofNat 0x9, Char.ofNat 0xA, Char.ofNat 0xB, Char.ofNat 0xC,
   Char.ofNat 0xD, Char.ofNat 0x20, Char.ofNat 0x85, Char.ofNat 0xA0,
   Char.ofNat 0x1680, Char.ofNat 0x2000, Char.ofNat 0x2001, Char.ofNat 0x2002,
   Char.ofNat 0x2003, Char.ofNat 0x2004, Char.ofNat 0x2005, Char.ofNat 0x2006,
   Char.ofNat 0x2007, Char.ofNat 0x2008, Char.ofNat 0x2009, Char.ofNat 0x200A,
   Char.ofNat 0x2028, Char.ofNat 0x2029, Char.ofNat 0x202F, Char.ofNat 0x205F,
   Char.ofNat 0x3000]

/-- Go's `unicode.IsSpace`. -/
def goIsSpace (c : Char) : Bool := goSpaceChars.contains c

/-- Go's `strings.TrimSpace`: strip leading and trailing white space. -/
def trimSpace (s : String) : String :=
  String.mk (((s.data.dropWhile goIsSpace).reverse.dropWhile goIsSpace).reverse)

/-- `countTrue` from reconcile.go lines 111-119: the number of `true`
values among the arguments. -/
def countTrue (booleans : List Bool) : Nat :=
  booleans.foldl (fun cnt val => if val then cnt + 1 else cnt) 0

/-- Unit-style cost structure used to embed `datatools.Levenshtein`:
insertion, deletion and substitution carry the given constant costs. -/
def goCost (insertCost deleteCost substituteCost : Nat) :
    Levenshtein.Cost Char Char Nat :=
  ⟨fun _ => deleteCost, fun _ => insertCost,
   fun a b => if a = b then 0 else substituteCost⟩

/-- Modelled from the spec: `datatools.Levenshtein` lives in the external
caltechlibrary/datatools package, not in this repository.  The spec
describes it as the edit distance with the given insertion, deletion and
substitution costs, compared case-insensitively when the final flag is
false ("case-insensitive bounded edit distance with unit cost for
insertion, deletion, and substitution"). -/
def datatoolsLevenshtein (src target : String)
    (insertCost deleteCost substituteCost : Nat) (caseSensitive : Bool) : Nat :=
  let s := if caseSensitive then src.data else src.data.map Char.toLower
  let t := if caseSensitive then target.data else target.data.map Char.toLower
  levenshtein (goCost insertCost deleteCost substituteCost) s t

/-- The nine field-agreement tests passed to `countTrue` by `Match`
(reconcile.go lines 125-128): the designated descriptive fields, compared
with Go `==` (case-sensitive, untrimmed).  `Tind` and `OCLC` do not appear. -/
def fieldBools (target source : Record) : List Bool :=
  [decide (target.MaterialType = source.MaterialType),
   decide (target.MonoOrSerial = source.MonoOrSerial),
   decide (target.Date1 = source.Date1),
   decide (target.Date2 = source.Date2),
   decide (target.Form = source.Form),
   decide (target.ISBN = source.ISBN),
   decide (target.ISSN = source.ISSN),
   decide (target.Publisher = source.Publisher),
   decide (target.Year = source.Year)]

/-- `Match` from reconcile.go lines 121-153 (identical in
reconcile2/reconcile2.go lines 125-157). -/
def Match (target source : Record) (withLevenshtein : Bool) : Bool :=
  if withLevenshtein then
    if datatoolsLevenshtein target.Title source.Title 1 1 1 false ≤ 1 ∧
        countTrue (fieldBools target source) > 5 then
      true
    else
      false
  else
    if target.Title = source.Title ∧
        countTrue (fieldBools target source) > 5 then
      true
    else if trimSpace target.Title = trimSpace source.Title ∧
        countTrue (fieldBools target source) > 5 then
      true
    else
      false

/-- `Merge` from reconcile.go lines 155-163: fill the candidate's empty
identifier fields from the target and return the candidate.  In Go this
mutates `source` through its pointer; the returned value is the post-state
of the `source` record. -/
def Merge (target source : Record) : Record :=
  let source := if source.Tind = "" then { source with Tind := target.Tind } else source
  let source := if source.OCLC = "" then { source with OCLC := target.OCLC } else source
  source

/-- `Scan` from reconcile.go lines 165-183, with the mutation of the
candidate store made explicit.  Returns the post-state of `sources`
(matching candidates are merged in place and stamped with the match count)
and the list of emitted records.  `Match` reads none of the fields `Merge`
or the `MatchedCount` assignment write, so the per-iteration mutation does
not alter later match decisions within the same scan. -/
def Scan (target : Record) (sources : List Record) (withLevenshtein : Bool) :
    List Record × List Record :=
  let mCnt := (sources.filter (fun s => Match target s withLevenshtein)).length
  (sources.map (fun s =>
      if Match target s withLevenshtein then
        { Merge target s with MatchedCount := mCnt }
      else s),
   (sources.filter (fun s => Match target s withLevenshtein)).map (fun s =>
      { Merge target s with MatchedCount := mCnt }))

/-- The column names recognized by the `switch` in `RowToRecord`
(reconcile.go lines 50-81). -/
def recognizedColumns : List String :=
  ["material type", "mono or serial", "date1", "date2", "form", "tind",
   "oclc", "isbn", "issn", "title", "subtitle", "author", "publisher",
   "year", "pagination"]

/-- Whether a column name hits one of the `switch` cases of `RowToRecord`. -/
def isRecognizedColumn (cName : String) : Bool := recognizedColumns.contains cName

/-- The assignment performed by the `switch` case for `cName` in
`RowToRecord`: store `v` into the corresponding field. -/
def setColumn (rec : Record) (cName v : String) : Record :=
  match cName with
  | "material type" => { rec with MaterialType := v }
  | "mono or serial" => { rec with MonoOrSerial := v }
  | "date1" => { rec with Date1 := v }
  | "date2" => { rec with Date2 := v }
  | "form" => { rec with Form := v }
  | "tind" => { rec with Tind := v }
  | "oclc" => { rec with OCLC := v }
  | "isbn" => { rec with ISBN := v }
  | "issn" => { rec with ISSN := v }
  | "title" => { rec with Title := v }
  | "subtitle" => { rec with SubTitle := v }
  | "author" => { rec with Author := v }
  | "publisher" => { rec with Publisher := v }
  | "year" => { rec with Year := v }
  | "pagination" => { rec with Pagination := v }
  | _ => rec

/-- One iteration of the `RowToRecord` loop: a recognized column name
evaluates `row[colNo]` (Go panics, i.e. `none`, when `colNo` is out of
range) and assigns the field; an unrecognized name falls through the
`switch` without touching the row. -/
def applyColumn (rec : Record) (cName : String) (row : List String)
    (colNo : Nat) : Option Record :=
  if isRecognizedColumn cName then
    (row[colNo]?).map (setColumn rec cName)
  else
    some rec

/-- The loop of `RowToRecord` over the remaining column names, with
`colNo` the index of the next column. -/
def rowToRecordAux (row : List String) :
    Record → Nat → List String → Option Record
  | rec, _, [] => some rec
  | rec, colNo, cName :: rest =>
      match applyColumn rec cName row colNo with
      | some rec2 => rowToRecordAux row rec2 (colNo + 1) rest
      | none => none

/-- `RowToRecord` from reconcile.go lines 47-84: project a raw row
through an ordered column-name list.  `none` embeds the Go index-range
panic on a row shorter than the recognized columns require. -/
def RowToRecord (columnNames row : List String) : Option Record :=
  rowToRecordAux row emptyRecord 0 columnNames

/-- Result of running one pass of the reconcile.go pipeline: the
post-state of the candidate store, the per-target emitted record lists
(one entry per matched target), the indices of the targets the pass
failed to match, and the trace of target indices scanned, in order. -/
structure PassResult where
  store : List Record
  outs : List (List Record)
  unmatched : List Nat
  scanned : List Nat
  deriving Repr, DecidableEq

/-- One pass of reconcile.go's `main` (the loops at lines 263-278 and
283-299): scan each listed target index against the candidate store in
order, emit the scan result when non-empty, otherwise record the index as
unmatched. -/
def passRun (targets : List Record) (withLevenshtein : Bool) :
    List Nat → List Record → PassResult
  | [], store => ⟨store, [], [], []⟩
  | i :: rest, store =>
      let t := targets.getD i emptyRecord
      let sc := Scan t store withLevenshtein
      let r := passRun targets withLevenshtein rest sc.1
      if sc.2.isEmpty then
        ⟨r.store, r.outs, i :: r.unmatched, i :: r.scanned⟩
      else
        ⟨r.store, sc.2 :: r.outs, r.unmatched, i :: r.scanned⟩

/-- The two passes run by reconcile.go's `main`. -/
structure PipelineResult where
  strict : PassResult
  fuzzy : PassResult

/-- reconcile.go's `main` matching pipeline (lines 256-299): a strict
pass (`withLevenshtein = false`) over every target index, then a fuzzy
pass (`withLevenshtein = true`) over exactly the indices the strict pass
left unmatched, against the candidate store as the strict pass left it. -/
def reconcileMain (targets cands : List Record) : PipelineResult :=
  let p1 := passRun targets false (List.range targets.length) cands
  let p2 := passRun targets true p1.unmatched p1.store
  ⟨p1, p2⟩

/-- Modelled from the spec: `fmt.Sprintf("%q", s)` comes from Go's fmt
package, outside this repository; the spec says each text field is
"individually quoted". -/
def quoteField (s : String) : String := "\"" ++ s ++ "\""

/-- `Record.String` from reconcile.go lines 39-45: the quoted,
comma-separated output line for a record, ending in the unquoted match
count. -/
def recordLine (r : Record) : String :=
  String.intercalate ","
    (([r.MaterialType, r.MonoOrSerial, r.Date1, r.Date2, r.Form,
       r.Tind, r.OCLC, r.ISBN, r.ISSN, r.Title,
       r.SubTitle, r.Author, r.Publisher, r.Year,
       r.Pagination].map quoteField) ++ [toString r.MatchedCount])

/-- The mutable state of reconcile2/reconcile2.go's `main` loop
(lines 274-303): the candidate store, the emitted data lines, the two
counters, and `oclcCnt`, the denominator used for progress reporting. -/
structure R2State where
  store : List Record
  lines : List String
  matchedCnt : Nat
  unmatchedCnt : Nat
  oclcCnt : Nat
  deriving Repr, DecidableEq

/-- One iteration of reconcile2's `main` loop (lines 281-303): a target
whose OCLC identifier is in the resume index only decrements the progress
denominator; otherwise the target is scanned, emitting the scan's lines
on a match and emitting the scan's empty string `s` (a blank line — the
record itself is not printed) when unmatched. -/
def r2Step (resume : List String) (st : R2State) (rec : Record) : R2State :=
  if resume.contains rec.OCLC then
    { st with oclcCnt := st.oclcCnt - 1 }
  else
    let sc := Scan rec st.store false
    if sc.2.isEmpty then
      { st with store := sc.1, lines := st.lines ++ [""],
                unmatchedCnt := st.unmatchedCnt + 1 }
    else
      { st with store := sc.1, lines := st.lines ++ sc.2.map recordLine,
                matchedCnt := st.matchedCnt + 1 }

/-- reconcile2/reconcile2.go's `main` processing loop: fold `r2Step` over
the targets, starting from the full candidate store and with the progress
denominator initialized to the number of targets (line 266). -/
def reconcile2Main (resume : List String) (targets cands : List Record) :
    R2State :=
  targets.foldl (r2Step resume) ⟨cands, [], 0, 0, targets.length⟩

/-! Theorems settling the claims. -/

/-- C1: for the strict pass, `Match` returns true iff the titles are
equivalent under the strict mode (exact equality or equality after
trimming, either suffices) and strictly more than 5 of the 9 designated
fields are exactly equal; and the two identifier fields never contribute
to the count (replacing them does not change it). -/
theorem strict_match_iff (target source : Record) (a b c d : String) :
    (Match target source false = true ↔
      ((target.Title = source.Title ∨
          trimSpace target.Title = trimSpace source.Title) ∧
        countTrue (fieldBools target source) > 5)) ∧
    countTrue (fieldBools { target with Tind := a, OCLC := b }
        { source with Tind := c, OCLC := d }) =
      countTrue (fieldBools target source) := by
  constructor
  · by_cases h1 : target.Title = source.Title <;>
      by_cases h2 : trimSpace target.Title = trimSpace source.Title <;>
      by_cases h3 : countTrue (fieldBools target source) > 5 <;>
      simp [Match, h1, h2, h3]
  · rfl

/-- C3: `Merge` never overwrites a populated identifier field on the base
(candidate) side: a non-empty `Tind` or `OCLC` of `source` is preserved,
an empty one is filled from the corresponding field of `target`. -/
theorem merge_fills_only_empty_identifiers (target source : Record) :
    ((Merge target source).Tind =
      if source.Tind = "" then target.Tind else source.Tind) ∧
    ((Merge target source).OCLC =
      if source.OCLC = "" then target.OCLC else source.OCLC) := by
  by_cases h1 : source.Tind = "" <;> by_cases h2 : source.OCLC = "" <;>
    simp [Merge, h1, h2]

/-- C5: `Scan` emits exactly one output record per matching candidate
(`k` matches yield `k` records, not deduplicated), every emitted record
carries `MatchedCount = k`, and the output is empty exactly when no
candidate matches. -/
theorem scan_emits_match_count (target : Record) (sources : List Record)
    (withLevenshtein : Bool) :
    ((Scan target sources withLevenshtein).2.length =
      (sources.filter (fun s => Match target s withLevenshtein)).length) ∧
    ((Scan target sources withLevenshtein).2.all (fun r =>
        r.MatchedCount ==
          (sources.filter (fun s => Match target s withLevenshtein)).length)
      = true) ∧
    ((Scan target sources withLevenshtein).2.isEmpty =
      (sources.filter (fun s => Match target s withLevenshtein)).isEmpty) := by
  refine ⟨by simp [Scan], ?_, ?_⟩
  · rw [List.all_eq_true]
    intro r hr
    rcases List.mem_map.1 hr with ⟨s, _, rfl⟩
    simp
  · have hmap : ∀ (l : List Record) (f : Record → Record),
        (l.map f).isEmpty = l.isEmpty := by
      intro l f
      cases l <;> rfl
    simp [Scan, hmap]

set_option maxRecDepth 200000 in
/-- C2: fuzzy-mode title equivalence (the title test of `Match` with
`withLevenshtein = true`) holds iff the case-insensitive unit-cost edit
distance of the titles is at most 1; the spec's examples have distances
0 ("Hydrology Basics" / "hydrology basics"), 1 ("Hydrology Basics" /
"Hydrology Basic") and 4 > 1 ("Hydrology" / "Hydrological"). -/
theorem fuzzy_match_iff :
    (∀ target source : Record,
      Match target source true = true ↔
        (levenshtein (goCost 1 1 1) (target.Title.data.map Char.toLower)
            (source.Title.data.map Char.toLower) ≤ 1 ∧
          countTrue (fieldBools target source) > 5)) ∧
    datatoolsLevenshtein "Hydrology Basics" "hydrology basics" 1 1 1 false = 0 ∧
    datatoolsLevenshtein "Hydrology Basics" "Hydrology Basic" 1 1 1 false = 1 ∧
    datatoolsLevenshtein "Hydrology" "Hydrological" 1 1 1 false = 4 := by
  refine ⟨?_, by decide, by decide, by decide⟩
  intro target source
  by_cases h1 : datatoolsLevenshtein target.Title source.Title 1 1 1 false ≤ 1 <;>
    by_cases h2 : countTrue (fieldBools target source) > 5 <;>
    simp only [datatoolsLevenshtein, Bool.if_false_left] at h1 <;>
    simp [Match, datatoolsLevenshtein, h1, h2]

/-- C4: the Go `Merge` mutates its candidate argument in place rather
than building a fresh record.  First two conjuncts: the candidate's
post-state `Tind` is `"T1"` although its pre-state `Tind` was empty.
Third conjunct: after a first scan merged target `"T1"` into the
candidate store, a second target `"T2"` scanning the same store emits the
candidate with the first target's identifier — the shared candidate was
altered by the earlier merge. -/
theorem merge_mutates_candidate :
    ((Merge { emptyRecord with Title := "A", Tind := "T1" }
        { emptyRecord with Title := "A" }).Tind = "T1") ∧
    ({ emptyRecord with Title := "A" } : Record).Tind = "" ∧
    ((Scan { emptyRecord with Title := "A", Tind := "T2" }
        (Scan { emptyRecord with Title := "A", Tind := "T1" }
          [{ emptyRecord with Title := "A" }] false).1 false).2.headD
      emptyRecord).Tind = "T1" := by
  decide

/-- C7: in reconcile2, a target skipped by no resume entry and matched by
no candidate contributes the empty string as its output line (the code
prints `s`, which is empty, instead of the record), although the record's
own line would not be blank. -/
theorem unmatched_target_prints_blank_line :
    (reconcile2Main [] [{ emptyRecord with Title := "B" }] []).lines = [""] ∧
    (reconcile2Main [] [{ emptyRecord with Title := "B" }] []).unmatchedCnt = 1 ∧
    (recordLine { emptyRecord with Title := "B" }).isEmpty = false := by
  decide

/-- Helper for C9: the projection loop succeeds whenever the remaining
columns all fit inside the row. -/
theorem rowToRecordAux_isSome (row : List String) :
    ∀ (cns : List String) (rec : Record) (colNo : Nat),
      colNo + cns.length ≤ row.length →
      (rowToRecordAux row rec colNo cns).isSome = true := by
  intro cns
  induction cns with
  | nil =>
      intro rec colNo _
      rfl
  | cons c rest ih =>
      intro rec colNo h
      have hlt : colNo < row.length := by
        simp only [List.length_cons] at h
        omega
      by_cases hc : isRecognizedColumn c = true
      · simp only [rowToRecordAux, applyColumn, hc, if_true,
          List.getElem?_eq_getElem hlt, Option.map_some']
        exact ih _ _ (by simp only [List.length_cons] at h; omega)
      · simp only [rowToRecordAux, applyColumn, hc, if_false, Bool.false_eq_true]
        exact ih _ _ (by simp only [List.length_cons] at h; omega)

/-- Helper for C9: unrecognized column names are skipped without ever
touching the row, so they never make the projection fail. -/
theorem rowToRecordAux_unrecognized (row : List String) :
    ∀ (cns : List String) (rec : Record) (colNo : Nat),
      cns.all (fun c => !(isRecognizedColumn c)) = true →
      rowToRecordAux row rec colNo cns = some rec := by
  intro cns
  induction cns with
  | nil =>
      intro rec colNo _
      rfl
  | cons c rest ih =>
      intro rec colNo h
      rw [List.all_cons, Bool.and_eq_true] at h
      have hc : isRecognizedColumn c = false := by
        simpa using h.1
      simp only [rowToRecordAux, applyColumn, hc, if_false, Bool.false_eq_true]
      exact ih _ _ h.2

/-- C9 (counterexample): projection is not total — a recognized column
name with no corresponding row slot makes the Go code index past the end
of the row (a runtime panic, `none` in this embedding) instead of leaving
the field at its default. -/
theorem rowToRecord_panics_on_short_row :
    RowToRecord ["material type"] [] = none := by
  decide

/-- C9 (amended): record projection returns a Record whenever the row is
at least as long as the column-name list (the case the CSV layer
produces), and a column-name list made only of unrecognized names is
skipped entirely, yielding the default record for any row. -/
theorem rowToRecord_total_when_row_covers (columnNames row : List String) :
    (columnNames.length ≤ row.length →
      (RowToRecord columnNames row).isSome = true) ∧
    (columnNames.all (fun c => !(isRecognizedColumn c)) = true →
      RowToRecord columnNames row = some emptyRecord) :=
  ⟨fun h => rowToRecordAux_isSome row columnNames emptyRecord 0 (by omega),
   fun h => rowToRecordAux_unrecognized row columnNames emptyRecord 0 h⟩

/-- Witness for the amended C9: both parts applied at concrete inputs. -/
theorem rowToRecord_total_witness :
    (RowToRecord ["material type", "title"] ["book", "T"]).isSome = true ∧
    RowToRecord ["bogus", "junk"] ["x"] = some emptyRecord :=
  ⟨(rowToRecord_total_when_row_covers ["material type", "title"]
      ["book", "T"]).1 (by decide),
   (rowToRecord_total_when_row_covers ["bogus", "junk"] ["x"]).2 (by decide)⟩

/-- Helper for C6: a pass scans exactly the index list it is given, in
order. -/
theorem passRun_scanned (targets : List Record) (withLevenshtein : Bool) :
    ∀ (idxs : List Nat) (store : List Record),
      (passRun targets withLevenshtein idxs store).scanned = idxs := by
  intro idxs
  induction idxs with
  | nil =>
      intro store
      rfl
  | cons i rest ih =>
      intro store
      simp only [passRun]
      split <;> simp [ih]

/-- Helper for C6: the unmatched indices of a pass form a sublist of the
index list it was given. -/
theorem passRun_unmatched_sublist (targets : List Record)
    (withLevenshtein : Bool) :
    ∀ (idxs : List Nat) (store : List Record),
      (passRun targets withLevenshtein idxs store).unmatched.Sublist idxs := by
  intro idxs
  induction idxs with
  | nil =>
      intro store
      exact List.Sublist.refl _
  | cons i rest ih =>
      intro store
      simp only [passRun]
      split
      · exact List.Sublist.cons₂ i (ih _)
      · exact List.Sublist.cons i (ih _)

/-- Helper for C6: each scanned target yields exactly one outcome, an
emitted output list or an unmatched index. -/
theorem passRun_counts (targets : List Record) (withLevenshtein : Bool) :
    ∀ (idxs : List Nat) (store : List Record),
      (passRun targets withLevenshtein idxs store).outs.length +
        (passRun targets withLevenshtein idxs store).unmatched.length =
        idxs.length := by
  intro idxs
  induction idxs with
  | nil =>
      intro store
      rfl
  | cons i rest ih =>
      intro store
      simp only [passRun]
      split <;>
        · have h := ih ((Scan (targets.getD i emptyRecord) store
            withLevenshtein).1)
          simp only [List.length_cons]
          omega

/-- C6: the reconcile.go pipeline is exactly two ordered passes — the
strict pass scans every target index once, in order; the fuzzy pass scans
exactly the indices the strict pass left unmatched (a duplicate-free
sublist of the strict pass's indices, so no target is processed twice in
a pass and none re-enters the earlier pass); each pass resolves every
index it scans either to an emitted output or to an unmatched index. -/
theorem two_pass_pipeline (targets cands : List Record) :
    ((reconcileMain targets cands).strict.scanned =
      List.range targets.length) ∧
    ((reconcileMain targets cands).fuzzy.scanned =
      (reconcileMain targets cands).strict.unmatched) ∧
    (reconcileMain targets cands).strict.unmatched.Sublist
      (List.range targets.length) ∧
    (reconcileMain targets cands).strict.unmatched.Nodup ∧
    (reconcileMain targets cands).fuzzy.unmatched.Sublist
      (reconcileMain targets cands).strict.unmatched ∧
    (reconcileMain targets cands).fuzzy.unmatched.Nodup ∧
    ((reconcileMain targets cands).strict.outs.length +
      (reconcileMain targets cands).strict.unmatched.length =
      targets.length) ∧
    ((reconcileMain targets cands).fuzzy.outs.length +
      (reconcileMain targets cands).fuzzy.unmatched.length =
      (reconcileMain targets cands).strict.unmatched.length) := by
  have hnodup : (reconcileMain targets cands).strict.unmatched.Nodup :=
    (passRun_unmatched_sublist targets false (List.range targets.length)
      cands).nodup (List.nodup_range _)
  refine ⟨passRun_scanned targets false (List.range targets.length) cands,
    passRun_scanned targets true _ _,
    passRun_unmatched_sublist targets false (List.range targets.length) cands,
    hnodup,
    passRun_unmatched_sublist targets true _ _,
    (passRun_unmatched_sublist targets true _ _).nodup hnodup,
    ?_, passRun_counts targets true _ _⟩
  have h := passRun_counts targets false (List.range targets.length) cands
  simpa using h

/-- Helper for C8: a target whose identifier is in the resume index is
skipped, only decrementing the progress denominator. -/
theorem r2Step_skip (resume : List String) (st : R2State) (t : Record)
    (hc : resume.contains t.OCLC = true) :
    r2Step resume st t = { st with oclcCnt := st.oclcCnt - 1 } := by
  simp only [r2Step, hc, if_true]

/-- Helper for C8: a target whose identifier is not in the resume index
is processed exactly as it would be with no resume index at all. -/
theorem r2Step_keep (resume : List String) (st : R2State) (t : Record)
    (hc : resume.contains t.OCLC = false) :
    r2Step resume st t = r2Step [] st t := by
  simp only [r2Step, hc, Bool.false_eq_true, if_false, List.contains_nil]

/-- Helper for C8: processing an unfiltered target leaves the progress
denominator untouched. -/
theorem r2Step_keep_oclcCnt (resume : List String) (st : R2State)
    (t : Record) (hc : resume.contains t.OCLC = false) :
    (r2Step resume st t).oclcCnt = st.oclcCnt := by
  simp only [r2Step, hc, Bool.false_eq_true, if_false]
  split <;> rfl

/-- The components of the reconcile2 loop state other than the progress
denominator. -/
def r2proj (st : R2State) : List Record × List String × Nat × Nat :=
  (st.store, st.lines, st.matchedCnt, st.unmatchedCnt)

/-- Helper for C8: one unfiltered step depends only on, and changes only,
the non-denominator components of the state. -/
theorem r2Step_proj_congr (t : Record) (st st' : R2State)
    (h : r2proj st = r2proj st') :
    r2proj (r2Step [] st t) = r2proj (r2Step [] st' t) := by
  obtain ⟨h1, h2, h3, h4⟩ : st.store = st'.store ∧ st.lines = st'.lines ∧
      st.matchedCnt = st'.matchedCnt ∧ st.unmatchedCnt = st'.unmatchedCnt := by
    simpa [r2proj, Prod.ext_iff] using h
  simp only [r2Step, List.contains, List.elem_nil, Bool.false_eq_true, if_false,
    h1, h2, h3, h4]
  split <;> simp [r2proj]

/-- Helper for C8: a run with a resume index produces the same store,
output lines and counters as a run, without any resume index, over only
the targets the index does not filter out. -/
theorem r2_run_filter (resume : List String) :
    ∀ (ts : List Record) (st st' : R2State), r2proj st = r2proj st' →
      r2proj (ts.foldl (r2Step resume) st) =
      r2proj ((ts.filter (fun t => !(resume.contains t.OCLC))).foldl
        (r2Step []) st') := by
  intro ts
  induction ts with
  | nil =>
      intro st st' h
      simpa using h
  | cons t rest ih =>
      intro st st' h
      by_cases hc : resume.contains t.OCLC = true
      · have hf : (t :: rest).filter (fun t => !(resume.contains t.OCLC)) =
            rest.filter (fun t => !(resume.contains t.OCLC)) :=
          List.filter_cons_of_neg (by rw [hc]; decide)
        rw [List.foldl_cons, hf, r2Step_skip resume st t hc]
        exact ih _ _ (by simpa [r2proj] using h)
      · have hc' : resume.contains t.OCLC = false := by
          simpa using hc
        have hf : (t :: rest).filter (fun t => !(resume.contains t.OCLC)) =
            t :: rest.filter (fun t => !(resume.contains t.OCLC)) :=
          List.filter_cons_of_pos (by rw [hc']; decide)
        rw [List.foldl_cons, hf, List.foldl_cons, r2Step_keep resume st t hc']
        exact ih _ _ (r2Step_proj_congr t st st' h)

/-- Helper for C8: the final progress denominator is the initial one
minus the number of filtered-out targets. -/
theorem r2_run_oclcCnt (resume : List String) :
    ∀ (ts : List Record) (st : R2State),
      (ts.foldl (r2Step resume) st).oclcCnt =
        st.oclcCnt - (ts.filter (fun t => resume.contains t.OCLC)).length := by
  intro ts
  induction ts with
  | nil =>
      intro st
      rfl
  | cons t rest ih =>
      intro st
      by_cases hc : resume.contains t.OCLC = true
      · have hfc : (t :: rest).filter (fun t => resume.contains t.OCLC) =
            t :: rest.filter (fun t => resume.contains t.OCLC) :=
          List.filter_cons_of_pos hc
        rw [List.foldl_cons, r2Step_skip resume st t hc, ih, hfc]
        dsimp only
        simp only [List.length_cons]
        omega
      · have hc' : resume.contains t.OCLC = false := by
          simpa using hc
        have hfc : (t :: rest).filter (fun t => resume.contains t.OCLC) =
            rest.filter (fun t => resume.contains t.OCLC) :=
          List.filter_cons_of_neg (by rw [hc']; decide)
        rw [List.foldl_cons, ih, hfc, r2Step_keep_oclcCnt resume st t hc']

/-- Helper for C8: a list splits into the part a Bool predicate keeps and
the part it rejects. -/
theorem length_filter_not_add (p : Record → Bool) (l : List Record) :
    (l.filter (fun a => !(p a))).length + (l.filter p).length = l.length := by
  induction l with
  | nil => rfl
  | cons a l ih =>
      by_cases h : p a = true <;>
        simp [List.filter_cons, h, ← ih] <;> omega

/-- C8: a target whose OCLC identifier is in the resume index contributes
no output line, no matching work and no store change — the run equals the
run over only the unfiltered targets — and the final progress denominator
counts exactly the unfiltered targets. -/
theorem resume_index_filters_targets (resume : List String)
    (targets cands : List Record) :
    ((reconcile2Main resume targets cands).lines =
      (reconcile2Main []
        (targets.filter (fun t => !(resume.contains t.OCLC))) cands).lines) ∧
    ((reconcile2Main resume targets cands).store =
      (reconcile2Main []
        (targets.filter (fun t => !(resume.contains t.OCLC))) cands).store) ∧
    ((reconcile2Main resume targets cands).matchedCnt =
      (reconcile2Main []
        (targets.filter (fun t => !(resume.contains t.OCLC))) cands).matchedCnt) ∧
    ((reconcile2Main resume targets cands).unmatchedCnt =
      (reconcile2Main []
        (targets.filter (fun t => !(resume.contains t.OCLC))) cands).unmatchedCnt) ∧
    ((reconcile2Main resume targets cands).oclcCnt =
      (targets.filter (fun t => !(resume.contains t.OCLC))).length) := by
  have hmain := r2_run_filter resume targets
    ⟨cands, [], 0, 0, targets.length⟩
    ⟨cands, [], 0, 0,
      (targets.filter (fun t => !(resume.contains t.OCLC))).length⟩ rfl
  have hsplit := length_filter_not_add (fun t => resume.contains t.OCLC) targets
  have hcnt := r2_run_oclcCnt resume targets ⟨cands, [], 0, 0, targets.length⟩
  refine ⟨congrArg (fun q => q.2.1) hmain, congrArg (fun q => q.1) hmain,
    congrArg (fun q => q.2.2.1) hmain, congrArg (fun q => q.2.2.2) hmain, ?_⟩
  show (targets.foldl (r2Step resume)
    ⟨cands, [], 0, 0, targets.length⟩).oclcCnt = _
  rw [hcnt]
  dsimp only at hsplit ⊢
  omega

/-- Helper for C10: a decided string equality is symmetric. -/
theorem deq_comm (x y : String) : decide (x = y) = decide (y = x) := by
  by_cases h : x = y
  · simp [h]
  · simp [h, Ne.symm h]

/-- Helper for C10: the nine designated field comparisons are symmetric
in the two records. -/
theorem fieldBools_comm (a b : Record) : fieldBools a b = fieldBools b a := by
  unfold fieldBools
  rw [deq_comm a.MaterialType, deq_comm a.MonoOrSerial, deq_comm a.Date1,
    deq_comm a.Date2, deq_comm a.Form, deq_comm a.ISBN, deq_comm a.ISSN,
    deq_comm a.Publisher, deq_comm a.Year]

/-- Helper for C10: with equal insertion and deletion costs and a
symmetric substitution cost, the edit distance is symmetric. -/
theorem goLev_comm : ∀ (xs ys : List Char),
    levenshtein (goCost 1 1 1) xs ys = levenshtein (goCost 1 1 1) ys xs := by
  intro xs
  induction xs with
  | nil =>
      intro ys
      induction ys with
      | nil => rfl
      | cons y ys ih =>
          rw [levenshtein_nil_cons, levenshtein_cons_nil, ih]
          rfl
  | cons x xs ihx =>
      intro ys
      induction ys with
      | nil =>
          rw [levenshtein_cons_nil, levenshtein_nil_cons, ihx []]
          rfl
      | cons y ys ihy =>
          rw [levenshtein_cons_cons, levenshtein_cons_cons,
            ihx (y :: ys), ihy, ihx ys]
          have hsub : (goCost 1 1 1).substitute x y =
              (goCost 1 1 1).substitute y x := by
            by_cases h : x = y
            · simp [goCost, h]
            · simp [goCost, h, Ne.symm h]
          rw [hsub]
          simp only [goCost]
          exact min_left_comm _ _ _

/-- Helper for C10: the strict-pass match decision as one decided
proposition. -/
theorem match_false_eq (target source : Record) :
    Match target source false =
      decide (((target.Title = source.Title) ∨
          (trimSpace target.Title = trimSpace source.Title)) ∧
        countTrue (fieldBools target source) > 5) := by
  by_cases h1 : target.Title = source.Title <;>
    by_cases h2 : trimSpace target.Title = trimSpace source.Title <;>
    by_cases h3 : countTrue (fieldBools target source) > 5 <;>
    simp [Match, h1, h2, h3]

/-- Helper for C10: the fuzzy-pass match decision as one decided
proposition. -/
theorem match_true_eq (target source : Record) :
    Match target source true =
      decide (datatoolsLevenshtein target.Title source.Title 1 1 1 false ≤ 1 ∧
        countTrue (fieldBools target source) > 5) := by
  by_cases h1 : datatoolsLevenshtein target.Title source.Title 1 1 1 false ≤ 1 <;>
    by_cases h2 : countTrue (fieldBools target source) > 5 <;>
    simp [Match, h1, h2]

/-- C10: the match predicate is symmetric in its two record arguments in
both modes — every field comparison is an equality test and the edit
distance uses equal insertion and deletion costs. -/
theorem match_symm (a b : Record) (withLevenshtein : Bool) :
    Match a b withLevenshtein = Match b a withLevenshtein := by
  have hcount : countTrue (fieldBools a b) = countTrue (fieldBools b a) := by
    rw [fieldBools_comm]
  have hlev : datatoolsLevenshtein a.Title b.Title 1 1 1 false =
      datatoolsLevenshtein b.Title a.Title 1 1 1 false := by
    simp only [datatoolsLevenshtein]
    exact goLev_comm _ _
  cases withLevenshtein with
  | false =>
      rw [match_false_eq, match_false_eq, decide_eq_decide, hcount]
      constructor
      · rintro ⟨h | h, hcond⟩
        · exact ⟨Or.inl h.symm, hcond⟩
        · exact ⟨Or.inr h.symm, hcond⟩
      · rintro ⟨h | h, hcond⟩
        · exact ⟨Or.inl h.symm, hcond⟩
        · exact ⟨Or.inr h.symm, hcond⟩
  | true =>
      rw [match_true_eq, match_true_eq, decide_eq_decide, hcount, hlev]

end Reconcile
